import Mathlib

/-!
Verification development for the apimate query-filter DSL and its MongoDB
translation layer.  The definitions below are a shallow embedding of the
Python sources:

  * `src/apimate/query.py`          — filter value model, field descriptors,
                                      schema registration, query parsing;
  * `src/apimate/mongodb/query.py`  — translation to the MongoDB find
                                      document, pagination, relation loading;
  * `src/apimate/mongodb/types.py`  — the raw-record bridge
                                      `to_mongo` / `from_mongo`.

Python dicts are embedded as insertion-ordered association lists with
distinct keys, Python sets / frozensets as deduplicated lists, exceptions
as `Except String`.
-/

set_option linter.unusedVariables false

namespace Apimate

/-! ### Wire-level JSON values (the raw filter payload) -/

/-- A scalar JSON value as it appears inside a raw filter payload. -/
inductive RawVal where
  | str (s : String)
  | int (n : Int)
  | bool (b : Bool)
  | null
deriving DecidableEq, Repr

/-- Python `str(value)` on a scalar payload value. -/
def RawVal.pyStr : RawVal → String
  | .str s => s
  | .int n => toString n
  | .bool b => if b then "True" else "False"
  | .null => "None"

/-- Python `repr(value)` on a scalar payload value (strings are quoted). -/
def RawVal.pyRepr : RawVal → String
  | .str s => ⟨Char.ofNat 39 :: (s.data ++ [Char.ofNat 39])⟩
  | v => v.pyStr

/-- One value of the raw filter payload dict (`FilterJson` value type in
`query.py`): a bare scalar, a list, or a single-level operator map. -/
inductive RawCond where
  | scalar (v : RawVal)
  | list (vs : List RawVal)
  | map (entries : List (String × RawVal))
deriving DecidableEq, Repr

/-- Python `str(value)` on a whole condition value (`str` is applied to the
bare value in `QueryField.parse_value`, even when it is a list or a dict). -/
def RawCond.pyStr : RawCond → String
  | .scalar v => v.pyStr
  | .list vs => "[" ++ String.intercalate ", " (vs.map RawVal.pyRepr) ++ "]"
  | .map es =>
      "\x7b" ++ String.intercalate ", "
        (es.map fun kv => (RawVal.str kv.1).pyRepr ++ ": " ++ kv.2.pyRepr) ++ "\x7d"

/-! ### Sorting model (`query.py` lines 14-21, 78-81) -/

/-- Enum `SortDirection(IntEnum)`: `ASC = 1`, `DESC = -1`. -/
inductive SortDirection where
  | ASC
  | DESC
deriving DecidableEq, Repr

/-- The integer value of a `SortDirection` member. -/
def SortDirection.toInt : SortDirection → Int
  | .ASC => 1
  | .DESC => -1

/-- Flag `FieldSort(IntFlag)` with members `NO = 0`, `ASC = 1`, `DESC = 2`,
embedded as the two flag bits. -/
structure FieldSort where
  asc : Bool
  desc : Bool
deriving DecidableEq, Repr

def FieldSort.NO : FieldSort := ⟨false, false⟩

def FieldSort.ASC : FieldSort := ⟨true, false⟩

def FieldSort.DESC : FieldSort := ⟨false, true⟩

/-- Flag union, `FieldSort.ASC | FieldSort.DESC` in Python. -/
def FieldSort.union (a b : FieldSort) : FieldSort := ⟨a.asc || b.asc, a.desc || b.desc⟩

/-! ### Filter value model (`query.py` lines 24-75, `mongodb/query.py` 19-21) -/

/-- Enum `TextFilterOperation` with values `=`, `!`, `^`, `$`, `%`. -/
inductive TextFilterOperation where
  | EQ
  | NEQ
  | START
  | END
  | CONTAIN
deriving DecidableEq, Repr

/-- The `value` of a `TextFilterOperation` member. -/
def TextFilterOperation.symbol : TextFilterOperation → String
  | .EQ => "="
  | .NEQ => "!"
  | .START => "^"
  | .END => "$"
  | .CONTAIN => "%"

/-- Lookup `TextFilterOperation(sym)`: look a member up by its value; raises
(`none`) for an unknown symbol. -/
def TextFilterOperation.ofSymbol (s : String) : Option TextFilterOperation :=
  if s = "=" then some .EQ
  else if s = "!" then some .NEQ
  else if s = "^" then some .START
  else if s = "$" then some .END
  else if s = "%" then some .CONTAIN
  else none

/-- Enum `OrderFilterOperation` with values `=`, `!`, `>`, `>=`, `<`, `<=`. -/
inductive OrderFilterOperation where
  | EQ
  | NEQ
  | GT
  | GTE
  | LT
  | LTE
deriving DecidableEq, Repr

/-- The `value` of an `OrderFilterOperation` member. -/
def OrderFilterOperation.symbol : OrderFilterOperation → String
  | .EQ => "="
  | .NEQ => "!"
  | .GT => ">"
  | .GTE => ">="
  | .LT => "<"
  | .LTE => "<="

/-- Lookup `OrderFilterOperation(sym)`: look a member up by its value. -/
def OrderFilterOperation.ofSymbol (s : String) : Option OrderFilterOperation :=
  if s = "=" then some .EQ
  else if s = "!" then some .NEQ
  else if s = ">" then some .GT
  else if s = ">=" then some .GTE
  else if s = "<" then some .LT
  else if s = "<=" then some .LTE
  else none

/-- The frozen filter dataclasses.  `IdsFilter` always carries
`field="ids"`; its `values` frozenset is embedded as a deduplicated list.
`IntFilter` is the `OrderFilter` specialisation used by `IntQueryField`;
`RefFilter` is declared in `mongodb/query.py` (its `value` is an `ObjectId`,
embedded as the hex string it wraps). -/
inductive Filter where
  | IdsFilter (values : List String)
  | TextFilter (field : String) (op : TextFilterOperation) (value : String)
  | IntFilter (field : String) (op : OrderFilterOperation) (value : Int)
  | RefFilter (field : String) (value : String)
deriving DecidableEq, Repr

/-- The `field` attribute of a filter (the dataclass field). -/
def Filter.fieldName : Filter → String
  | .IdsFilter _ => "ids"
  | .TextFilter f _ _ => f
  | .IntFilter f _ _ => f
  | .RefFilter f _ => f

/-! ### Field descriptors (`query.py` lines 84-127, `mongodb/query.py` 24-27) -/

/-- Which concrete descriptor class a registered field is: `QueryField`
(plain text), `IntQueryField` (ordered, integer-coercing) or the
mongodb-side `RefQueryField`.  `DecimalQueryField` / `DatetimeQueryField`
share `OrderedQueryField.parse_value` with `IntQueryField` and differ only
in the coerced value type. -/
inductive FieldKind where
  | text
  | intK
  | refK
deriving DecidableEq, Repr

/-- A field descriptor with its bound attribute name (`field.name = key` is
done by `SearchQueryMeta.__new__`) and declared sortability flags. -/
structure QueryField where
  name : String
  sort : FieldSort
  kind : FieldKind
deriving DecidableEq, Repr

/-- Python truthiness of a `SortDirection` member (`ASC = 1` and `DESC = -1`
are both nonzero, hence both truthy). -/
def SortDirection.pyTruthy (d : SortDirection) : Bool := d.toInt ≠ 0

/-- Predicate `QueryField.can_sort` (`query.py` lines 99-100):

    return direction.ASC and FieldSort.ASC in self.sort or
           direction.DESC and FieldSort.DESC in self.sort

`direction.ASC` / `direction.DESC` are attribute accesses on an enum
member; in Python they resolve to the class members `SortDirection.ASC`
and `SortDirection.DESC` whatever `direction` is, and both are truthy, so
each `x and y` collapses to its right operand and the result does not
depend on `direction` at all. -/
def QueryField.can_sort (self : QueryField) (direction : SortDirection) : Bool :=
  (SortDirection.pyTruthy .ASC && self.sort.asc) ||
    (SortDirection.pyTruthy .DESC && self.sort.desc)

/-- The argument of `QueryField.parse_value`: a `(symbol, value)` tuple (one
item of an operator map) or the bare condition value. -/
inductive PValue where
  | pair (sym : String) (v : RawVal)
  | raw (c : RawCond)
deriving DecidableEq, Repr

/-- Coercion `parse_obj_as(int, v)` — pydantic integer coercion of a scalar. -/
def parseIntRaw : RawVal → Except String Int
  | .int n => .ok n
  | .bool b => .ok (if b then 1 else 0)
  | .str s =>
      match s.toInt? with
      | some n => .ok n
      | none => .error "value is not a valid integer"
  | .null => .error "none is not an allowed value"

/-- Parser `QueryField.parse_value` (`query.py` lines 90-97): a tuple maps its
first element through `TextFilterOperation` and stringifies the second; a
bare value yields an `EQ` filter on its string form. -/
def parseTextValue (name : String) : PValue → Except String Filter
  | .pair sym v =>
      match TextFilterOperation.ofSymbol sym with
      | some op => .ok (.TextFilter name op v.pyStr)
      | none => .error (sym ++ " is not a valid TextFilterOperation")
  | .raw c => .ok (.TextFilter name .EQ c.pyStr)

/-- Parser `OrderedQueryField.parse_value` (`query.py` lines 107-115) specialised
to `IntQueryField`: the operator symbol goes through
`OrderFilterOperation`, the value through `parse_obj_as(int, ...)`. -/
def parseIntValue (name : String) : PValue → Except String Filter
  | .pair sym v =>
      match OrderFilterOperation.ofSymbol sym with
      | some op => (parseIntRaw v).map (fun n => .IntFilter name op n)
      | none => .error (sym ++ " is not a valid OrderFilterOperation")
  | .raw (.scalar v) => (parseIntRaw v).map (fun n => .IntFilter name .EQ n)
  | .raw _ => .error "value is not a valid integer"

/-- Parser `RefQueryField.parse_value` (`mongodb/query.py` lines 24-27):

    return RefFilter(field=self.name,
                     value=ObjectId(parse_obj_as(constr(regex=ID_STRING), value)))

The whole argument — tuple or not — is passed to the constrained-string
validator, so a `(symbol, value)` tuple fails pydantic's `str` check and
no operator is ever honoured.  The `ID_STRING` regex lives in
`apimate/types.py`; it is abstracted as the predicate `idre`. -/
def parseRefValue (idre : String → Bool) (name : String) : PValue → Except String Filter
  | .pair _ _ => .error "str type expected"
  | .raw (.scalar (.str s)) =>
      if idre s then .ok (.RefFilter name s) else .error "string does not match regex"
  | .raw (.scalar (.int n)) =>
      if idre (toString n) then .ok (.RefFilter name (toString n))
      else .error "string does not match regex"
  | .raw _ => .error "str type expected"

/-- Descriptor dispatch for `parse_value`: each registered field parses a
raw condition according to its concrete descriptor class. -/
def QueryField.parse_value (self : QueryField) (idre : String → Bool) (v : PValue) :
    Except String Filter :=
  match self.kind with
  | .text => parseTextValue self.name v
  | .intK => parseIntValue self.name v
  | .refK => parseRefValue idre self.name v

/-! ### Schema registration (`query.py` lines 130-151) -/

/-- Dict-update of a field registry keyed by bound name
(`fields.update(base_fields)` / `fields[key] = field`). -/
def updateFieldRegistry (base : List QueryField) (own : List QueryField) : List QueryField :=
  own.foldl
    (fun acc f =>
      if acc.any (fun g => g.name == f.name) then
        acc.map (fun g => if g.name == f.name then f else g)
      else acc ++ [f])
    base

/-- The default-sort validation of `SearchQueryMeta.__new__` (`query.py`
lines 146-150): if a default sort is declared, the named field must be in
the merged registry and `can_sort` must accept the declared direction;
otherwise a `ValueError` is raised at class-definition time. -/
def SearchQueryMeta.validate (fields : List QueryField)
    (default_sort : Option (String × SortDirection)) : Except String Unit :=
  match default_sort with
  | none => .ok ()
  | some ds =>
      match fields.find? (fun f => f.name == ds.1) with
      | none => .error ("Cant use default sort by " ++ ds.1)
      | some field =>
          if field.can_sort ds.2 then .ok ()
          else .error ("Cant use default sort by " ++ ds.1)

/-- Registration `SearchQueryMeta.__new__` (`query.py` lines 132-151): merge the base
registries with the class's own declarations (own win on name collision),
then validate the effective default sort; the merged registry is frozen on
the class when validation passes. -/
def SearchQueryMeta.new (baseFields ownFields : List QueryField)
    (default_sort : Option (String × SortDirection)) : Except String (List QueryField) :=
  let fields := updateFieldRegistry baseFields ownFields
  match SearchQueryMeta.validate fields default_sort with
  | .ok _ => .ok fields
  | .error e => .error e

/-! ### Query parsing (`query.py` lines 154-219) -/

/-- The schema-level configuration a `SearchQuery` subclass carries: the
merged `__fields__` registry and the identifier validation of `id_type`
(`str` for the base class — every string passes; a `constr` regex,
abstracted as a predicate, for `MongodbSearchQuery`).  The same regex is
used by `RefQueryField`. -/
structure SearchSchema where
  fields : List QueryField
  id_regex : String → Bool

/-- Pydantic string coercion (`str` accepts strings and stringifies
numbers; other shapes fail). -/
def coerceStr : RawVal → Except String String
  | .str s => .ok s
  | .int n => .ok (toString n)
  | _ => .error "str type expected"

/-- Parser `SearchQuery.parse_ids` (`query.py` lines 200-202):
`parse_obj_as(FrozenSet[self.id_type], values)` — the condition must be a
list, each element is coerced to a string and validated against the
schema's identifier type, and the result is a frozenset (deduplicated). -/
def parse_ids (schema : SearchSchema) : RawCond → Except String Filter
  | .list vs =>
      match vs.mapM coerceStr with
      | .ok ss =>
          if ss.all schema.id_regex then .ok (.IdsFilter ss.dedup)
          else .error "string does not match regex"
      | .error e => .error e
  | _ => .error "value is not a valid frozenset"

/-- The smart-union coercion performed by `parse_obj_as(FilterJson, values)`
(`query.py` line 184): `FilterJson` values are
`Union[str, List[Any], Dict[str, Any]]` and pydantic v1 tries `str` first,
so bare numeric and boolean scalars are coerced to their string form while
lists and single-level maps pass through unchanged; a bare `None` is
rejected before any field is examined. -/
def filterJsonNorm : RawCond → Except String RawCond
  | .scalar (.int n) => .ok (.scalar (.str (toString n)))
  | .scalar (.bool b) => .ok (.scalar (.str (if b then "True" else "False")))
  | .scalar .null => .error "none is not an allowed value"
  | c => .ok c

/-- The loop of `SearchQuery.parse_filter_values` (`query.py` lines
185-198) over the (insertion-ordered) payload items, carrying the `result`
accumulator.  On the reserved key `"ids"` the accumulated result is
discarded and only the ids filter is returned; an unregistered field name
raises `KeyError`; a dict condition contributes one filter per
operator→value item, any other condition one filter. -/
def parseFilterGo (schema : SearchSchema) :
    List (String × RawCond) → List Filter → Except String (List Filter)
  | [], result => .ok result
  | (field_name, condition) :: rest, result =>
      if field_name = "ids" then
        match parse_ids schema condition with
        | .ok f => .ok [f]
        | .error e => .error e
      else
        match schema.fields.find? (fun qf => qf.name == field_name) with
        | some field =>
            match condition with
            | .map entries =>
                match entries.mapM
                    (fun e => field.parse_value schema.id_regex (.pair e.1 e.2)) with
                | .ok fs => parseFilterGo schema rest (result ++ fs)
                | .error e => .error e
            | c =>
                match field.parse_value schema.id_regex (.raw c) with
                | .ok f => parseFilterGo schema rest (result ++ [f])
                | .error e => .error e
        | none => .error ("Bad field in filter " ++ field_name)

/-- Parser `SearchQuery.parse_filter_values` (`query.py` lines 183-198): validate
the payload with `parse_obj_as(FilterJson, ...)`, then walk its items. -/
def parse_filter_values (schema : SearchSchema) (values : List (String × RawCond)) :
    Except String (List Filter) :=
  match values.mapM (fun kv => (filterJsonNorm kv.2).map (fun c => (kv.1, c))) with
  | .ok normed => parseFilterGo schema normed []
  | .error e => .error e

/-- Constructor call `frozenset(...)` over the parsed filters (`query.py` line 172):
duplicates by value collapse. -/
def frozensetFilters (l : List Filter) : List Filter := l.dedup

/-- Default of the `page` parameter in `SearchQuery.__init__`
(`query.py` line 167): `page: int = Query(0)`. -/
def SearchQuery.default_page : Int := 0

/-- Default of the `limit` parameter in `SearchQuery.__init__`
(`query.py` line 168): `limit: conint(ge=1, lt=251) = Query(20)`. -/
def SearchQuery.default_limit : Nat := 20

/-! ### MongoDB find-document translation (`mongodb/query.py` lines 30-86) -/

/-- A value inside a MongoDB condition document: scalars, `ObjectId`s,
compiled case-insensitive regexes (`re.IGNORECASE | re.UNICODE`), and
lists (for `$in`). -/
inductive MVal where
  | str (s : String)
  | int (n : Int)
  | oid (s : String)
  | regex (pattern : String)
  | list (vs : List MVal)

/-- The per-field condition document, e.g. `{"$eq": "foo"}`. -/
abbrev MongoCond := List (String × MVal)

/-- The whole find document: field name → condition document. -/
abbrev MongoQuery := List (String × MongoCond)

/-- Table `MongodbSearchQuery.order_filter_map` (`mongodb/query.py` lines 32-39). -/
def order_filter_map : OrderFilterOperation → String
  | .EQ => "$eq"
  | .NEQ => "$ne"
  | .LT => "$lt"
  | .LTE => "$lte"
  | .GT => "$gt"
  | .GTE => "$gte"

/-- Translation `MongodbSearchQuery.filter_ids` (`mongodb/query.py` lines 65-66):
membership of the primary key in the `ObjectId`-converted id set. -/
def filter_ids (values : List String) : String × MongoCond :=
  ("_id", [("$in", .list (values.map MVal.oid))])

/-- Translation `MongodbSearchQuery.filter_text` (`mongodb/query.py` lines 68-80):
`EQ`/`NEQ` become `$eq`/`$ne`; the other operations become an anchored
case-insensitive `$regex` (`^value`, `value$`, or bare `value`). -/
def filter_text (field : String) (op : TextFilterOperation) (value : String) :
    String × MongoCond :=
  match op with
  | .EQ => (field, [("$eq", .str value)])
  | .NEQ => (field, [("$ne", .str value)])
  | .START => (field, [("$regex", .regex ("^" ++ value))])
  | .END => (field, [("$regex", .regex (value ++ "$"))])
  | .CONTAIN => (field, [("$regex", .regex value)])

/-- Translation `MongodbSearchQuery.filter_ordered` (`mongodb/query.py` lines 82-83). -/
def filter_ordered (field : String) (op : OrderFilterOperation) (value : Int) :
    String × MongoCond :=
  (field, [(order_filter_map op, .int value)])

/-- Translation `MongodbSearchQuery.filter_equal` (`mongodb/query.py` lines 85-86),
used for `RefFilter` (its value is an `ObjectId`). -/
def filter_equal (field : String) (value : String) : String × MongoCond :=
  (field, [("$eq", .oid value)])

/-- The `isinstance` chain of `MongodbSearchQuery.find` for the non-ids
filter kinds (`IdsFilter` is handled by the early return). -/
def findTranslate : Filter → Option (String × MongoCond)
  | .TextFilter f op v => some (filter_text f op v)
  | .IntFilter f op v => some (filter_ordered f op v)
  | .RefFilter f v => some (filter_equal f v)
  | .IdsFilter _ => none

/-- Python `dict.update` on a condition document: each new entry overwrites an
existing key in place or is appended. -/
def updateCond (cond newEntries : MongoCond) : MongoCond :=
  newEntries.foldl
    (fun acc kv =>
      if acc.any (fun e => e.1 == kv.1) then
        acc.map (fun e => if e.1 == kv.1 then kv else e)
      else acc ++ [kv])
    cond

/-- Update `find_request[field].update(cond)` on the `defaultdict(dict)`. -/
def findUpdate (fr : MongoQuery) (field : String) (cond : MongoCond) : MongoQuery :=
  if fr.any (fun e => e.1 == field) then
    fr.map (fun e => if e.1 == field then (field, updateCond e.2 cond) else e)
  else fr ++ [(field, updateCond [] cond)]

/-- The loop of `MongodbSearchQuery.find` (`mongodb/query.py` lines 43-59)
over the filter set (in its iteration order), with the `find_request`
accumulator.  An `IdsFilter` returns the membership predicate immediately,
dropping everything accumulated so far ("If has ids list, d`not use any
other filters"); a translated pair is merged only when both the field name
and the condition are truthy (non-empty), otherwise `NotImplementedError`
is raised. -/
def findAux : List Filter → MongoQuery → Except String MongoQuery
  | [], fr => .ok fr
  | .IdsFilter values :: _, _ => .ok [filter_ids values]
  | f :: rest, fr =>
      match findTranslate f with
      | some (field, cond) =>
          if field ≠ "" ∧ cond.isEmpty = false then findAux rest (findUpdate fr field cond)
          else .error "Transform for filter not implemented"
      | none => .error "Transform for filter not implemented"

/-- Translation `MongodbSearchQuery.find` (`mongodb/query.py` lines 41-59) as a
function of the filter set, listed in iteration order.  The
`cached_property` memoisation makes this a value computed once per query
object. -/
def MongodbSearchQuery.find (filters : List Filter) : Except String MongoQuery :=
  findAux filters []

/-! ### The raw-record bridge (`mongodb/types.py` lines 39-66) -/

/-- Decimal values are embedded by their string representation
(`str(Decimal)` is the identity on it). -/
structure PyDecimal where
  repr : String
deriving DecidableEq, Repr

/-- A Python value as it appears in a record mapping handed to `to_mongo` /
`from_mongo`: store-native scalars, the normalised kinds (`Enum` members,
`Decimal`, `timedelta`, `time`), `ObjectId`s, and nested dicts and lists.
`timedelta` is embedded for whole-second durations (`total_seconds()`
returns a float; its fractional part is irrelevant to every claim). -/
inductive PyVal where
  | str (s : String)
  | int (n : Int)
  | bool (b : Bool)
  | none
  | dec (d : PyDecimal)
  | timedelta (seconds : Int)
  | time (iso : String)
  | enum (name : String) (value : PyVal)
  | oid (s : String)
  | dict (entries : List (String × PyVal))
  | list (elems : List PyVal)

/-- Removal effect of `data.pop(k, None)` on a dict. -/
def popKey (k : String) (l : List (String × PyVal)) : List (String × PyVal) :=
  l.filter (fun kv => kv.1 ≠ k)

/-- Dict lookup. -/
def dictGet (l : List (String × PyVal)) (k : String) : Option PyVal :=
  (l.find? (fun kv => kv.1 == k)).map (fun kv => kv.2)

mutual

/-- The per-value normalisation of the `to_mongo` loop body
(`mongodb/types.py` lines 43-54): enum members are replaced by their
value, decimals stringified, durations by their seconds, times by their
isoformat; nested dicts go through `to_mongo`, and list elements each go
through `to_mongo` (which leaves non-dict elements untouched). -/
def to_mongoVal : PyVal → PyVal
  | .enum _ value => value
  | .dec d => .str d.repr
  | .timedelta n => .int n
  | .time iso => .str iso
  | .dict es => .dict (popKey "id" (to_mongoEntries es))
  | .list vs => .list (to_mongoTopList vs)
  | v => v

/-- The `to_mongo` loop over a dict's items. -/
def to_mongoEntries : List (String × PyVal) → List (String × PyVal)
  | [] => []
  | (k, v) :: rest => (k, to_mongoVal v) :: to_mongoEntries rest

/-- Comprehension `[to_mongo(it) for it in v]`: only dict elements are transformed,
every other element is returned unchanged by `to_mongo`. -/
def to_mongoTopList : List PyVal → List PyVal
  | [] => []
  | .dict es :: rest => .dict (popKey "id" (to_mongoEntries es)) :: to_mongoTopList rest
  | v :: rest => v :: to_mongoTopList rest

end

/-- Normalisation `to_mongo` on a dict: transform every value, then pop the `id` key. -/
def to_mongoDict (es : List (String × PyVal)) : List (String × PyVal) :=
  popKey "id" (to_mongoEntries es)

/-- Bridge `to_mongo` (`mongodb/types.py` lines 39-59): a dict is normalised
entry-wise and loses its `id` key; anything else is returned unchanged. -/
def to_mongo : PyVal → PyVal
  | .dict es => .dict (to_mongoDict es)
  | v => v

/-- Python truthiness of an embedded value (`if object_id:`). -/
def PyVal.pyTruthy : PyVal → Bool
  | .none => false
  | .bool b => b
  | .int n => n != 0
  | .str s => s != ""
  | .dec d => d.repr != "0"
  | .timedelta n => n != 0
  | .time _ => true
  | .enum _ _ => true
  | .oid _ => true
  | .dict es => !es.isEmpty
  | .list vs => !vs.isEmpty

/-- Bridge `from_mongo` (`mongodb/types.py` lines 62-66): pop `_id`; when its
value is truthy, re-insert it under the key `id` (dict insertion appends
the new key at the end). -/
def from_mongo (data : List (String × PyVal)) : List (String × PyVal) :=
  match dictGet data "_id" with
  | some v =>
      let d := popKey "_id" data
      if v.pyTruthy then d ++ [("id", v)] else d
  | Option.none => data

/-- Composition `from_mongo (to_mongo d)` for a record mapping `d`: the store bridge
round trip of claim C5. -/
def store_round_trip (es : List (String × PyVal)) : List (String × PyVal) :=
  from_mongo (to_mongoDict es)

/-! ### Query execution (`mongodb/query.py` lines 89-114) -/

/-- A raw MongoDB document, as the cursor yields it. -/
abbrev MDoc := List (String × PyVal)

/-- The document-store collection handle, an external collaborator: its
document sequence, its predicate semantics (`count_documents` / `find`
filter by it) and its sort semantics (`cursor.sort(field, direction)`,
direction being the `SortDirection` integer value). -/
structure MCollection where
  docs : List MDoc
  pred : MongoQuery → MDoc → Bool
  sortApply : String × Int → List MDoc → List MDoc

/-- One store round trip issued by `list_model`, in issue order. -/
inductive StoreOp where
  | countDocuments (q : MongoQuery)
  | findQ (q : MongoQuery)
  | close

/-- Model `BaseItemsList` (`query.py` lines 225-229): the result page. -/
structure ItemsList (β : Type) where
  items : List β
  page : Int
  limit : Nat
  count : Option Nat

/-- The slice of a query object that `list_model` reads: the memoised
`find` document, `sort`, `page`, `limit` and `with_count`
(`SearchQuery.__init__`, `query.py` lines 163-176). -/
structure MongoQueryExec where
  find : MongoQuery
  sort : Option (String × SortDirection)
  page : Int
  limit : Nat
  with_count : Bool

/-- The `async for doc in cursor` materialisation loop of `list_model`:
each document goes through `from_mongo`, then through the caller's
type-selector + `parse_obj` (the `parse` parameter); the first failure
aborts the loop with that error. -/
def materialize (parse : MDoc → Except String β) : List MDoc → Except String (List β)
  | [] => .ok []
  | d :: rest =>
      match parse (from_mongo d) with
      | .ok item => (materialize parse rest).map (fun items => item :: items)
      | .error e => .error e

/-- Executor `list_model` (`mongodb/query.py` lines 89-114), returning the sequence
of store operations it issues together with its outcome.  When
`with_count` is set, `count_documents` runs on the un-paginated find
document before the cursor is opened; the cursor is sorted, skipped by
`(page - 1) * limit` only when `page > 1`, limited, materialised, and
closed in a `finally` block on both the normal and the raising path; the
page echoes the raw `page` and `limit` values. -/
def list_model (c : MCollection) (parse : MDoc → Except String β) (q : MongoQueryExec) :
    List StoreOp × Except String (ItemsList β) :=
  let countOps : List StoreOp := if q.with_count then [.countDocuments q.find] else []
  let count : Option Nat :=
    if q.with_count then some ((c.docs.filter (c.pred q.find)).length) else none
  let found := c.docs.filter (c.pred q.find)
  let sorted :=
    match q.sort with
    | some s => c.sortApply (s.1, s.2.toInt) found
    | none => found
  let skipped := if q.page > 1 then sorted.drop ((q.page - 1) * q.limit).toNat else sorted
  let limited := skipped.take q.limit
  match materialize parse limited with
  | .ok items => (countOps ++ [.findQ q.find, .close], .ok ⟨items, q.page, q.limit, count⟩)
  | .error e => (countOps ++ [.findQ q.find, .close], .error e)

/-- The cursor contents after find and sort, before pagination — used to
state what `list_model` skips and takes. -/
def sortedDocs (c : MCollection) (q : MongoQueryExec) : List MDoc :=
  let found := c.docs.filter (c.pred q.find)
  match q.sort with
  | some s => c.sortApply (s.1, s.2.toInt) found
  | none => found

/-! ### Relation loading (`mongodb/query.py` lines 120-161) -/

/-- A related record as the relation lookup yields it (`SavedModel` with
its `id` attribute and some distinguishing payload). -/
structure SModel where
  id : String
  payload : Int
deriving DecidableEq, Repr

/-- A fetched record as the relation sees it through one relation's
attribute pair: `relId` is `getattr(item, relation.id_prop, None)` and
`target` the `relation.target_prop` attribute to populate. -/
structure SItem where
  relId : Option String
  target : Option SModel
deriving DecidableEq, Repr

/-- The mutable state of one `Relation`: the gathered id set (a Python
`set`, embedded as a deduplicated list) and the `id → model` dict filled
by `load`. -/
structure RelState where
  ids : List String
  models : List (String × SModel)
deriving DecidableEq, Repr

/-- Python truthiness of `getattr(item, id_prop, None)`: an absent
attribute (`None`) and an empty string are both falsy. -/
def relIdTruthy : Option String → Bool
  | Option.none => false
  | some s => s != ""

/-- Extraction `Relation.extract_id` (`mongodb/query.py` lines 129-132): add the
item's truthy reference to the id set. -/
def Relation.extract_id (r : RelState) (item : SItem) : RelState :=
  match item.relId with
  | some s =>
      if s ≠ "" then
        { r with ids := if s ∈ r.ids then r.ids else s :: r.ids }
      else r
  | Option.none => r

/-- Indexing `self.models[model.id] = model` over the lookup results. -/
def relModelsOf (found : List SModel) (models : List (String × SModel)) :
    List (String × SModel) :=
  found.foldl
    (fun acc mdl =>
      if acc.any (fun kv => kv.1 == mdl.id) then
        acc.map (fun kv => if kv.1 == mdl.id then (mdl.id, mdl) else kv)
      else acc ++ [(mdl.id, mdl)])
    models

/-- Loading `Relation.load` (`mongodb/query.py` lines 134-137): when the id set is
non-empty, issue one search with the membership predicate over exactly
that set and index the results by id.  The returned `Option` records the
id list of the single issued lookup (`none` = no lookup issued). -/
def Relation.load (search : List String → List SModel) (r : RelState) :
    Option (List String) × RelState :=
  if r.ids.isEmpty then (Option.none, r)
  else (some r.ids, { r with models := relModelsOf (search r.ids) r.models })

/-- Injection `Relation.inject` (`mongodb/query.py` lines 139-145): a truthy
reference is resolved through the models dict (`dict.get`, `None` when
unmatched); a falsy reference sets the target to `None`. -/
def Relation.inject (r : RelState) (item : SItem) : SItem :=
  match item.relId with
  | some s =>
      if s ≠ "" then
        { item with target := ((r.models.find? (fun kv => kv.1 == s)).map (fun kv => kv.2)) }
      else { item with target := Option.none }
  | Option.none => { item with target := Option.none }

/-- Pipeline `inject_list_relations` (`mongodb/query.py` lines 155-161) restricted
to one relation: extract every item's reference, load once, inject into
every item.  Returns the issued lookup (if any) with the injected items. -/
def inject_list_relation (search : List String → List SModel) (items : List SItem) :
    Option (List String) × List SItem :=
  let r := items.foldl Relation.extract_id ⟨[], []⟩
  let lr := Relation.load search r
  (lr.1, items.map (Relation.inject lr.2))

/-! ### Auxiliary definitions used by the statements -/

/-- A value `to_mongo` leaves untouched in value position: the scalars
that are already store-native (strings, ints, bools, `None`, `ObjectId`s).
Enums, decimals, durations, times and nested collections are rewritten. -/
def storeNative : PyVal → Bool
  | .str _ => true
  | .int _ => true
  | .bool _ => true
  | .none => true
  | .oid _ => true
  | _ => false

/-- The relation state after the extraction pass over a whole batch
(`inject_list_relations`, first loop). -/
def gatherRel (items : List SItem) : RelState :=
  items.foldl Relation.extract_id ⟨[], []⟩

/-- A concrete schema mirroring `FakeSearch` from the test-suite: a plain
text field, an integer field, and (for the mongodb layer) a reference
field; the identifier type accepts every string, like the base
`SearchQuery.id_type = str`. -/
def textSchema : SearchSchema :=
  ⟨[⟨"atext", FieldSort.NO, .text⟩, ⟨"ivalue", FieldSort.NO, .intK⟩], fun _ => true⟩

/-- A schema whose only registered field is a `RefQueryField`. -/
def refSchema : SearchSchema :=
  ⟨[⟨"rf", FieldSort.NO, .refK⟩], fun _ => true⟩

/-- A one-document collection with trivial predicate and sort semantics,
used to instantiate the execution theorems. -/
def oneDocCollection : MCollection :=
  ⟨[[("_id", PyVal.oid "a"), ("v", PyVal.int 1)]], fun _ _ => true, fun _ l => l⟩

/-! ### Helper lemmas -/

theorem textOp_ofSymbol_eq_symbol {s : String} {o : TextFilterOperation}
    (h : TextFilterOperation.ofSymbol s = some o) : s = o.symbol := by
  unfold TextFilterOperation.ofSymbol at h
  split_ifs at h with h1 h2 h3 h4 h5
  · injection h with h'; subst h'; exact h1
  · injection h with h'; subst h'; exact h2
  · injection h with h'; subst h'; exact h3
  · injection h with h'; subst h'; exact h4
  · injection h with h'; subst h'; exact h5

theorem orderOp_ofSymbol_eq_symbol {s : String} {o : OrderFilterOperation}
    (h : OrderFilterOperation.ofSymbol s = some o) : s = o.symbol := by
  unfold OrderFilterOperation.ofSymbol at h
  split_ifs at h with h1 h2 h3 h4 h5 h6
  · injection h with h'; subst h'; exact h1
  · injection h with h'; subst h'; exact h2
  · injection h with h'; subst h'; exact h3
  · injection h with h'; subst h'; exact h4
  · injection h with h'; subst h'; exact h5
  · injection h with h'; subst h'; exact h6

theorem textOp_ofSymbol_ne {s1 s2 : String} {o1 o2 : TextFilterOperation}
    (h1 : TextFilterOperation.ofSymbol s1 = some o1)
    (h2 : TextFilterOperation.ofSymbol s2 = some o2) (hne : s1 ≠ s2) : o1 ≠ o2 := by
  intro he
  exact hne (by rw [textOp_ofSymbol_eq_symbol h1, textOp_ofSymbol_eq_symbol h2, he])

theorem orderOp_ofSymbol_ne {s1 s2 : String} {o1 o2 : OrderFilterOperation}
    (h1 : OrderFilterOperation.ofSymbol s1 = some o1)
    (h2 : OrderFilterOperation.ofSymbol s2 = some o2) (hne : s1 ≠ s2) : o1 ≠ o2 := by
  intro he
  exact hne (by rw [orderOp_ofSymbol_eq_symbol h1, orderOp_ofSymbol_eq_symbol h2, he])

theorem parseTextValue_pair_shape {n s : String} {v : RawVal} {F : Filter}
    (h : parseTextValue n (.pair s v) = .ok F) :
    ∃ op, TextFilterOperation.ofSymbol s = some op ∧ F = .TextFilter n op v.pyStr := by
  simp only [parseTextValue] at h
  cases ho : TextFilterOperation.ofSymbol s with
  | some op => rw [ho] at h; exact ⟨op, rfl, by injection h with h'; exact h'.symm⟩
  | none => rw [ho] at h; cases h

theorem parseIntValue_pair_shape {n s : String} {v : RawVal} {F : Filter}
    (h : parseIntValue n (.pair s v) = .ok F) :
    ∃ op m, OrderFilterOperation.ofSymbol s = some op ∧ parseIntRaw v = .ok m ∧
      F = .IntFilter n op m := by
  simp only [parseIntValue] at h
  cases ho : OrderFilterOperation.ofSymbol s with
  | some op =>
      rw [ho] at h
      cases hv : parseIntRaw v with
      | ok m =>
          rw [hv] at h
          exact ⟨op, m, rfl, rfl, by injection h with h'; exact h'.symm⟩
      | error e => rw [hv] at h; cases h
  | none => rw [ho] at h; cases h

theorem parseRefValue_pair_no_ok {idre : String → Bool} {n s : String} {v : RawVal}
    {F : Filter} (h : parseRefValue idre n (.pair s v) = .ok F) : False := by
  simp [parseRefValue] at h

/-- Two successfully parsed operator pairs with distinct symbols yield
distinct filters, whatever descriptor kind the field has. -/
theorem parse_value_pair_ne (qf : QueryField) (idre : String → Bool)
    {s1 s2 : String} {v1 v2 : RawVal} {F1 F2 : Filter}
    (h1 : qf.parse_value idre (.pair s1 v1) = .ok F1)
    (h2 : qf.parse_value idre (.pair s2 v2) = .ok F2)
    (hne : s1 ≠ s2) : F1 ≠ F2 := by
  obtain ⟨n, srt, k⟩ := qf
  unfold QueryField.parse_value at h1 h2
  cases k with
  | text =>
      obtain ⟨o1, ho1, rfl⟩ := parseTextValue_pair_shape h1
      obtain ⟨o2, ho2, rfl⟩ := parseTextValue_pair_shape h2
      have := textOp_ofSymbol_ne ho1 ho2 hne
      intro he
      exact this (by injection he)
  | intK =>
      obtain ⟨o1, m1, ho1, _, rfl⟩ := parseIntValue_pair_shape h1
      obtain ⟨o2, m2, ho2, _, rfl⟩ := parseIntValue_pair_shape h2
      have := orderOp_ofSymbol_ne ho1 ho2 hne
      intro he
      injection he with he1 he2 he3
      exact this he2
  | refK => exact absurd h1 (fun h => parseRefValue_pair_no_ok h)

theorem to_mongoVal_of_storeNative {v : PyVal} (h : storeNative v = true) :
    to_mongoVal v = v := by
  cases v <;> simp_all [storeNative, to_mongoVal]

theorem to_mongoEntries_of_storeNative :
    ∀ (es : List (String × PyVal)), (es.all fun kv => storeNative kv.2) = true →
      to_mongoEntries es = es := by
  intro es h
  induction es with
  | nil => rfl
  | cons kv rest ih =>
      obtain ⟨k, v⟩ := kv
      simp only [List.all_cons, Bool.and_eq_true] at h
      simp [to_mongoEntries, to_mongoVal_of_storeNative h.1, ih h.2]

theorem dictGet_eq_none_of_keys_ne {es : List (String × PyVal)} {k : String}
    (h : (es.all fun kv => kv.1 != k) = true) : dictGet es k = Option.none := by
  induction es with
  | nil => rfl
  | cons kv rest ih =>
      simp only [List.all_cons, Bool.and_eq_true, bne_iff_ne] at h
      have hk : (kv.1 == k) = false := by simpa using h.1
      have := ih (by simpa using h.2)
      simp only [dictGet, List.find?_cons, hk] at this ⊢
      exact this

theorem popKey_keys_ne {es : List (String × PyVal)} {k k' : String}
    (h : (es.all fun kv => kv.1 != k) = true) :
    ((popKey k' es).all fun kv => kv.1 != k) = true := by
  induction es with
  | nil => rfl
  | cons kv rest ih =>
      simp only [List.all_cons, Bool.and_eq_true] at h
      by_cases hk : kv.1 = k'
      · simpa [popKey, hk] using ih h.2
      · simpa [popKey, hk, h.1] using ih h.2

/-- C2 (code bug witness): `SearchQueryMeta` accepts a default sort whose
direction the field's flags do not include.  The field `value` declares
only ascending sortability (`FieldSort.ASC`, i.e. `desc = false`), yet a
class declaring `default_sort = ("value", SortDirection.DESC)` is created
without error, because `can_sort` ignores its `direction` argument
(`direction.ASC` resolves to the always-truthy enum member).  The absent
field and no-direction cases, by contrast, are rejected as the claim
says. -/
theorem default_sort_wrong_direction_accepted :
    SearchQueryMeta.new [] [⟨"value", FieldSort.ASC, .text⟩] (some ("value", .DESC)) =
      .ok [⟨"value", FieldSort.ASC, .text⟩] ∧
    (FieldSort.ASC).desc = false ∧
    (⟨"value", FieldSort.ASC, .text⟩ : QueryField).can_sort .DESC = true ∧
    SearchQueryMeta.new [] [⟨"value", FieldSort.ASC, .text⟩] (some ("missing", .ASC)) =
      .error "Cant use default sort by missing" ∧
    SearchQueryMeta.new [] [⟨"value", FieldSort.NO, .text⟩] (some ("value", .ASC)) =
      .error "Cant use default sort by value" :=
  ⟨rfl, rfl, rfl, rfl, rfl⟩

/-- C3: a text-kind descriptor bound to name `f` parses a bare scalar to
`TextFilter(field=f, op=EQ, value=str(raw))`, and a `(symbol, value)` pair
to `TextFilter(field=f, op=T(symbol), value=str(value))` where `T` is
exactly the table `= ↦ EQ`, `! ↦ NEQ`, `^ ↦ START`, `$ ↦ END`,
`% ↦ CONTAIN`. -/
theorem text_field_parse_value_table :
    ∀ (f : String) (srt : FieldSort) (idre : String → Bool) (v : RawVal),
      (⟨f, srt, .text⟩ : QueryField).parse_value idre (.raw (.scalar v)) =
        .ok (.TextFilter f .EQ v.pyStr) ∧
      (⟨f, srt, .text⟩ : QueryField).parse_value idre (.pair "=" v) =
        .ok (.TextFilter f .EQ v.pyStr) ∧
      (⟨f, srt, .text⟩ : QueryField).parse_value idre (.pair "!" v) =
        .ok (.TextFilter f .NEQ v.pyStr) ∧
      (⟨f, srt, .text⟩ : QueryField).parse_value idre (.pair "^" v) =
        .ok (.TextFilter f .START v.pyStr) ∧
      (⟨f, srt, .text⟩ : QueryField).parse_value idre (.pair "$" v) =
        .ok (.TextFilter f .END v.pyStr) ∧
      (⟨f, srt, .text⟩ : QueryField).parse_value idre (.pair "%" v) =
        .ok (.TextFilter f .CONTAIN v.pyStr) := by
  intro f srt idre v
  refine ⟨rfl, ?_, ?_, ?_, ?_, ?_⟩ <;>
    simp [QueryField.parse_value, parseTextValue, TextFilterOperation.ofSymbol]

/-- C5 (counterexample): the store bridge round trip is not the identity
on non-identity keys.  For the record mapping `{"x": Decimal("1")}`,
`to_mongo` stringifies the decimal and `from_mongo` cannot undo it, so the
key `x` — not an identity key — comes back with a different value. -/
theorem store_round_trip_changes_decimal :
    store_round_trip [("x", PyVal.dec ⟨"1"⟩)] = [("x", PyVal.str "1")] ∧
    PyVal.str "1" ≠ PyVal.dec ⟨"1"⟩ :=
  ⟨rfl, fun h => PyVal.noConfusion h⟩

/-- C5 (amended): the round trip `from_mongo (to_mongo d)` reproduces
every non-identity entry unchanged — i.e. equals `d` with its `id` key
dropped — provided the values of `d` are already store-native scalars
(no enum / decimal / duration / time / nested collection, which
`to_mongo` rewrites) and `d` carries no `_id` key. -/
theorem round_trip_store_native (es : List (String × PyVal))
    (hnative : (es.all fun kv => storeNative kv.2) = true)
    (hnoid : (es.all fun kv => kv.1 != "_id") = true) :
    store_round_trip es = popKey "id" es := by
  unfold store_round_trip to_mongoDict
  rw [to_mongoEntries_of_storeNative es hnative]
  unfold from_mongo
  rw [dictGet_eq_none_of_keys_ne (popKey_keys_ne hnoid)]

/-- Witness for the amended C5 at a concrete record. -/
theorem round_trip_store_native_witness :
    store_round_trip [("x", PyVal.int 1), ("id", PyVal.str "5")] =
      popKey "id" [("x", PyVal.int 1), ("id", PyVal.str "5")] :=
  round_trip_store_native [("x", PyVal.int 1), ("id", PyVal.str "5")] rfl rfl

/-- C4 (counterexample): for a registered `RefQueryField`, a payload
offering two distinct operator entries for the field does not produce two
filters at all — `RefQueryField.parse_value` feeds the whole
`(symbol, value)` tuple to the constrained-string validator, which
rejects it, so the request fails. -/
theorem ref_field_two_operator_entries_fail :
    parse_filter_values refSchema [("rf", .map [("=", .str "a"), ("!", .str "a")])] =
      .error "str type expected" ∧
    ("=" : String) ≠ "!" :=
  ⟨rfl, by decide⟩

/-- C4 (amended): for every registered field whose descriptor parses both
operator entries successfully (text and ordered descriptors do;
`RefQueryField` rejects operator pairs), a payload entry with two distinct
operator→value items yields exactly those two filters, they are distinct,
and both survive the frozenset — the filter set has size 2. -/
theorem two_operator_entries_two_filters (schema : SearchSchema) (f : String)
    (qf : QueryField) (s1 s2 : String) (v1 v2 : RawVal) (F1 F2 : Filter)
    (hids : f ≠ "ids")
    (hfield : schema.fields.find? (fun g => g.name == f) = some qf)
    (h1 : qf.parse_value schema.id_regex (.pair s1 v1) = .ok F1)
    (h2 : qf.parse_value schema.id_regex (.pair s2 v2) = .ok F2)
    (hne : s1 ≠ s2) :
    parse_filter_values schema [(f, .map [(s1, v1), (s2, v2)])] = .ok [F1, F2] ∧
    F1 ≠ F2 ∧ (frozensetFilters [F1, F2]).length = 2 := by
  have hFne : F1 ≠ F2 := parse_value_pair_ne qf schema.id_regex h1 h2 hne
  refine ⟨?_, hFne, ?_⟩
  · simp only [parse_filter_values, filterJsonNorm, List.mapM_cons, List.mapM_nil]
    simp only [Except.map, bind, Except.bind, pure, Except.pure]
    simp only [parseFilterGo, if_neg hids, hfield, List.mapM_cons, List.mapM_nil, h1, h2]
    simp [bind, Except.bind, pure, Except.pure, parseFilterGo]
  · simp [frozensetFilters, List.dedup_cons_of_not_mem, hFne]

/-- Witness for the amended C4 at a concrete text field. -/
theorem two_operator_entries_two_filters_witness :
    parse_filter_values textSchema [("atext", .map [("=", .str "A"), ("!", .str "B")])] =
      .ok [.TextFilter "atext" .EQ "A", .TextFilter "atext" .NEQ "B"] ∧
    (Filter.TextFilter "atext" .EQ "A") ≠ .TextFilter "atext" .NEQ "B" ∧
    (frozensetFilters [.TextFilter "atext" .EQ "A", .TextFilter "atext" .NEQ "B"]).length = 2 :=
  two_operator_entries_two_filters textSchema "atext" ⟨"atext", FieldSort.NO, .text⟩
    "=" "!" (.str "A") (.str "B") _ _ (by decide) rfl rfl rfl (by decide)

theorem parseFilterGo_ids_short_circuit (schema : SearchSchema)
    (pre : List (String × RawCond)) :
    ∀ (c : RawCond) (post : List (String × RawCond)) (acc l : List Filter),
      (∀ p ∈ pre, p.1 ≠ "ids") →
      parseFilterGo schema (pre ++ ("ids", c) :: post) acc = .ok l →
      ∃ f, parse_ids schema c = .ok f ∧ l = [f] := by
  induction pre with
  | nil =>
      intro c post acc l hpre h
      simp only [List.nil_append, parseFilterGo, if_pos rfl] at h
      cases hp : parse_ids schema c with
      | ok f =>
          rw [hp] at h
          exact ⟨f, rfl, by injection h with h'; exact h'.symm⟩
      | error e => rw [hp] at h; cases h
  | cons hd tl ih =>
      intro c post acc l hpre h
      obtain ⟨name, cond⟩ := hd
      have hname : name ≠ "ids" := hpre (name, cond) (by simp)
      have htl : ∀ p ∈ tl, p.1 ≠ "ids" := fun p hp => hpre p (by simp [hp])
      simp only [List.cons_append, parseFilterGo, if_neg hname] at h
      repeat' split at h
      all_goals first
        | exact ih c post _ l htl h
        | cases h

theorem findTranslate_cond_nonempty {f : Filter} {fld : String} {cond : MongoCond}
    (h : findTranslate f = some (fld, cond)) : cond.isEmpty = false := by
  cases f with
  | IdsFilter values => simp [findTranslate] at h
  | TextFilter f op v =>
      cases op <;>
        (simp only [findTranslate, filter_text] at h; injection h with h';
          cases h'; simp [List.isEmpty])
  | IntFilter f op v =>
      simp only [findTranslate, filter_ordered] at h; injection h with h'
      cases h'; simp [List.isEmpty]
  | RefFilter f v =>
      simp only [findTranslate, filter_equal] at h; injection h with h'
      cases h'; simp [List.isEmpty]

theorem findAux_ids_short_circuit :
    ∀ (pre : List Filter) (values : List String) (post : List Filter) (fr : MongoQuery),
      (∀ f ∈ pre, ∃ fld cond, findTranslate f = some (fld, cond) ∧ fld ≠ "") →
      findAux (pre ++ .IdsFilter values :: post) fr = .ok [filter_ids values] := by
  intro pre
  induction pre with
  | nil =>
      intro values post fr hpre
      simp [findAux]
  | cons f tl ih =>
      intro values post fr hpre
      obtain ⟨fld, cond, htr, hfld⟩ := hpre f (by simp)
      have hcond := findTranslate_cond_nonempty htr
      have htl : ∀ g ∈ tl, ∃ fld cond, findTranslate g = some (fld, cond) ∧ fld ≠ "" :=
        fun g hg => hpre g (by simp [hg])
      cases f with
      | IdsFilter vs => simp [findTranslate] at htr
      | TextFilter n op v =>
          simp only [List.cons_append, findAux, htr, if_pos (And.intro hfld hcond)]
          exact ih values post _ htl
      | IntFilter n op v =>
          simp only [List.cons_append, findAux, htr, if_pos (And.intro hfld hcond)]
          exact ih values post _ htl
      | RefFilter n v =>
          simp only [List.cons_append, findAux, htr, if_pos (And.intro hfld hcond)]
          exact ih values post _ htl

/-- C1 (amended): the `ids` short circuit.  (a) Whenever the raw filter
payload passes the `FilterJson` validation, contains the reserved key
`"ids"`, and `parse_filter_values` returns (keys preceding `"ids"` are
still looked up and parsed, so an unknown field or a bad value before
`"ids"` raises instead of being ignored — see the counterexample), the
result is exactly one filter, the `IdsFilter` parsed from that entry's
condition.  (b) For a filter set listing an `IdsFilter` after filters that
translate to truthy field/condition pairs, `MongodbSearchQuery.find` is
exactly the `_id`-membership document over the converted id set — every
other filter in the set is dropped. -/
theorem ids_filter_short_circuit :
    (∀ (schema : SearchSchema) (values normed : List (String × RawCond))
       (pre : List (String × RawCond)) (c : RawCond) (post : List (String × RawCond))
       (l : List Filter),
       values.mapM (fun kv => (filterJsonNorm kv.2).map (fun c2 => (kv.1, c2))) = .ok normed →
       normed = pre ++ ("ids", c) :: post →
       (∀ p ∈ pre, p.1 ≠ "ids") →
       parse_filter_values schema values = .ok l →
       ∃ f, parse_ids schema c = .ok f ∧ l = [f]) ∧
    (∀ (pre : List Filter) (ids : List String) (post : List Filter),
       (∀ f ∈ pre, ∃ fld cond, findTranslate f = some (fld, cond) ∧ fld ≠ "") →
       MongodbSearchQuery.find (pre ++ .IdsFilter ids :: post) =
         .ok [("_id", [("$in", MVal.list (ids.map MVal.oid))])]) := by
  constructor
  · intro schema values normed pre c post l hnorm hsplit hpre h
    unfold parse_filter_values at h
    rw [hnorm] at h
    subst hsplit
    exact parseFilterGo_ids_short_circuit schema pre c post [] l hpre h
  · intro pre ids post hpre
    exact findAux_ids_short_circuit pre ids post [] hpre

/-- C1 (counterexample to the claim as stated): a payload that contains
the reserved key `"ids"` but names an unknown field before it is rejected
with `KeyError`, instead of ignoring the other key and returning the lone
`IdsFilter`. -/
theorem ids_filter_not_always_single :
    parse_filter_values textSchema
        [("bogus", .scalar (.str "x")), ("ids", .list [.str "a"])] =
      .error "Bad field in filter bogus" ∧
    ("ids", RawCond.list [RawVal.str "a"]) ∈
      [("bogus", RawCond.scalar (.str "x")), ("ids", RawCond.list [RawVal.str "a"])] :=
  ⟨rfl, by simp⟩

/-- Witness for the amended C1 at a concrete payload and filter set. -/
theorem ids_filter_short_circuit_witness :
    (∃ f, parse_ids textSchema (.list [.str "a", .str "b"]) = .ok f ∧
       [Filter.IdsFilter ["a", "b"]] = [f]) ∧
    MongodbSearchQuery.find [.TextFilter "atext" .EQ "x", .IdsFilter ["a", "b"]] =
      .ok [("_id", [("$in", MVal.list [MVal.oid "a", MVal.oid "b"])])] := by
  constructor
  · exact ids_filter_short_circuit.1 textSchema
      [("atext", .scalar (.str "x")), ("ids", .list [.str "a", .str "b"])]
      [("atext", .scalar (.str "x")), ("ids", .list [.str "a", .str "b"])]
      [("atext", .scalar (.str "x"))] (.list [.str "a", .str "b"]) []
      [Filter.IdsFilter ["a", "b"]] rfl rfl (by simp) rfl
  · exact ids_filter_short_circuit.2 [.TextFilter "atext" .EQ "x"] ["a", "b"] []
      (fun f hf => by
        simp only [List.mem_singleton] at hf
        subst hf
        exact ⟨"atext", [("$eq", .str "x")], rfl, by decide⟩)

theorem list_model_fst {β : Type} (c : MCollection) (parse : MDoc → Except String β)
    (q : MongoQueryExec) :
    (list_model c parse q).1 =
      (if q.with_count then [StoreOp.countDocuments q.find] else []) ++
        [StoreOp.findQ q.find, StoreOp.close] := by
  simp only [list_model]
  split <;> rfl

theorem list_model_snd {β : Type} (c : MCollection) (parse : MDoc → Except String β)
    (q : MongoQueryExec) :
    (list_model c parse q).2 =
      (materialize parse
          ((if q.page > 1 then (sortedDocs c q).drop ((q.page - 1) * q.limit).toNat
            else sortedDocs c q).take q.limit)).map
        (fun items => ⟨items, q.page, q.limit,
           if q.with_count then some ((c.docs.filter (c.pred q.find)).length)
           else Option.none⟩) := by
  simp only [list_model, sortedDocs]
  split
  next items heq => rw [heq]; rfl
  next e heq => rw [heq]; rfl

theorem materialize_ok : ∀ (l : List MDoc),
    materialize (fun d => Except.ok d) l = .ok (l.map from_mongo) := by
  intro l
  induction l with
  | nil => rfl
  | cons d rest ih => simp [materialize, ih, Except.map]

theorem except_map_eq_ok {α β : Type} {f : α → β} {m : Except String α} {b : β}
    (h : Except.map f m = .ok b) : ∃ a, m = .ok a ∧ b = f a := by
  cases m with
  | ok a => exact ⟨a, rfl, by injection h with h2; exact h2.symm⟩
  | error e => cases h

/-- C6: the store translation skips exactly `(page - 1) * limit` documents
precisely when `page > 1`, before taking `limit` documents: the page items
are the sorted cursor contents with that prefix dropped and `limit` taken
(first conjunct), and in particular `page = 2, limit = 20` drops exactly
20 documents before taking up to 20 more (second conjunct). -/
theorem skip_applied_iff_page_gt_one :
    (∀ (c : MCollection) (q : MongoQueryExec),
       (list_model c (fun d => Except.ok d) q).2 =
         .ok ⟨((if q.page > 1 then (sortedDocs c q).drop ((q.page - 1) * q.limit).toNat
                else sortedDocs c q).take q.limit).map from_mongo,
              q.page, q.limit,
              if q.with_count then some ((c.docs.filter (c.pred q.find)).length)
              else Option.none⟩) ∧
    (∀ (c : MCollection) (fq : MongoQuery) (srt : Option (String × SortDirection)) (wc : Bool),
       (list_model c (fun d => Except.ok d) ⟨fq, srt, 2, 20, wc⟩).2 =
         .ok ⟨(((sortedDocs c ⟨fq, srt, 2, 20, wc⟩).drop 20).take 20).map from_mongo,
              2, 20,
              if wc then some ((c.docs.filter (c.pred fq)).length) else Option.none⟩) := by
  have main : ∀ (c : MCollection) (q : MongoQueryExec),
      (list_model c (fun d => Except.ok d) q).2 =
        .ok ⟨((if q.page > 1 then (sortedDocs c q).drop ((q.page - 1) * q.limit).toNat
               else sortedDocs c q).take q.limit).map from_mongo,
             q.page, q.limit,
             if q.with_count then some ((c.docs.filter (c.pred q.find)).length)
             else Option.none⟩ := by
    intro c q
    rw [list_model_snd, materialize_ok]
    rfl
  refine ⟨main, fun c fq srt wc => ?_⟩
  have h2 := main c ⟨fq, srt, 2, 20, wc⟩
  norm_num at h2 ⊢
  exact h2

/-- C7: exactly when `with_count` is requested, a count query over the
same un-paginated find document is issued before the find, and the page
echoes its result; otherwise no count query is issued and the page's
count is `None`. -/
theorem count_query_iff_with_count :
    ∀ (β : Type) (c : MCollection) (parse : MDoc → Except String β) (q : MongoQueryExec),
      (q.with_count = true →
         (list_model c parse q).1 =
           [.countDocuments q.find, .findQ q.find, .close] ∧
         ∀ p, (list_model c parse q).2 = .ok p →
           p.count = some ((c.docs.filter (c.pred q.find)).length)) ∧
      (q.with_count = false →
         (list_model c parse q).1 = [.findQ q.find, .close] ∧
         (∀ fq2, StoreOp.countDocuments fq2 ∉ (list_model c parse q).1) ∧
         ∀ p, (list_model c parse q).2 = .ok p → p.count = Option.none) := by
  intro β c parse q
  constructor
  · intro hwc
    refine ⟨by rw [list_model_fst]; simp [hwc], fun p hp => ?_⟩
    rw [list_model_snd] at hp
    obtain ⟨items, hm, hb⟩ := except_map_eq_ok hp
    subst hb
    simp [hwc]
  · intro hwc
    refine ⟨by rw [list_model_fst]; simp [hwc], ?_, fun p hp => ?_⟩
    · intro fq2
      rw [list_model_fst]
      simp [hwc]
    · rw [list_model_snd] at hp
      obtain ⟨items, hm, hb⟩ := except_map_eq_ok hp
      subst hb
      simp [hwc]

/-- Witness for C7: on a one-document collection, `with_count = true`
issues the count before the find and reports it; `with_count = false`
issues no count and reports `None`. -/
theorem count_query_iff_with_count_witness :
    ((list_model oneDocCollection (fun d => Except.ok d) ⟨[], Option.none, 0, 20, true⟩).1 =
       [.countDocuments [], .findQ [], .close] ∧
     ∀ p, (list_model oneDocCollection (fun d => Except.ok d)
         ⟨[], Option.none, 0, 20, true⟩).2 = .ok p →
       p.count = some ((oneDocCollection.docs.filter (oneDocCollection.pred [])).length)) ∧
    ((list_model oneDocCollection (fun d => Except.ok d) ⟨[], Option.none, 0, 20, false⟩).1 =
       [.findQ [], .close] ∧
     (∀ fq2, StoreOp.countDocuments fq2 ∉
        (list_model oneDocCollection (fun d => Except.ok d)
          ⟨[], Option.none, 0, 20, false⟩).1) ∧
     ∀ p, (list_model oneDocCollection (fun d => Except.ok d)
         ⟨[], Option.none, 0, 20, false⟩).2 = .ok p →
       p.count = Option.none) :=
  ⟨(count_query_iff_with_count MDoc oneDocCollection (fun d => Except.ok d)
      ⟨[], Option.none, 0, 20, true⟩).1 rfl,
   (count_query_iff_with_count MDoc oneDocCollection (fun d => Except.ok d)
      ⟨[], Option.none, 0, 20, false⟩).2 rfl⟩

/-- C9: whatever the query and however materialisation goes — including a
`parse` that fails on some document — the last store operation of
`list_model` is always the cursor close (the `finally` block). -/
theorem cursor_closed_every_path :
    ∀ (β : Type) (c : MCollection) (parse : MDoc → Except String β) (q : MongoQueryExec),
      ((list_model c parse q).1).getLast? = some .close := by
  intro β c parse q
  rw [list_model_fst]
  cases hwc : q.with_count <;> simp [hwc]

/-- C10: a query whose `page` is at most 1 — including the constructor's
default `page = 0` and negative pages — applies no skip: its items and
its store-operation trace agree with the same query at `page = 1`; and
whatever the page value, the result echoes the caller's raw `page`
unchanged. -/
theorem page_le_one_no_skip :
    (∀ (β : Type) (c : MCollection) (parse : MDoc → Except String β)
       (q : MongoQueryExec), q.page ≤ 1 →
       ((list_model c parse q).2).map (fun p => p.items) =
         ((list_model c parse { q with page := 1 }).2).map (fun p => p.items) ∧
       (list_model c parse q).1 = (list_model c parse { q with page := 1 }).1) ∧
    (∀ (β : Type) (c : MCollection) (parse : MDoc → Except String β)
       (q : MongoQueryExec) (p : ItemsList β),
       (list_model c parse q).2 = .ok p → p.page = q.page) ∧
    SearchQuery.default_page = 0 := by
  refine ⟨?_, ?_, rfl⟩
  · intro β c parse q hpage
    have hskip : ¬ q.page > 1 := by omega
    constructor
    · rw [list_model_snd, list_model_snd]
      have hsorted : sortedDocs c { q with page := 1 } = sortedDocs c q := rfl
      rw [hsorted]
      rw [if_neg hskip, if_neg (by omega : ¬ (1 : Int) > 1)]
      cases hm : materialize parse ((sortedDocs c q).take q.limit) <;> rfl
    · rw [list_model_fst, list_model_fst]
  · intro β c parse q p hp
    rw [list_model_snd] at hp
    obtain ⟨items, hm, hb⟩ := except_map_eq_ok hp
    subst hb
    rfl

/-- Witness for C10 at `page = 0` on a concrete collection. -/
theorem page_le_one_no_skip_witness :
    (((list_model oneDocCollection (fun d => Except.ok d)
         ⟨[], Option.none, 0, 20, false⟩).2).map (fun p => p.items) =
       ((list_model oneDocCollection (fun d => Except.ok d)
         ⟨[], Option.none, 1, 20, false⟩).2).map (fun p => p.items) ∧
     (list_model oneDocCollection (fun d => Except.ok d)
         ⟨[], Option.none, 0, 20, false⟩).1 =
       (list_model oneDocCollection (fun d => Except.ok d)
         ⟨[], Option.none, 1, 20, false⟩).1) ∧
    (⟨[[("v", PyVal.int 1), ("id", PyVal.oid "a")]], 0, 20, Option.none⟩ :
        ItemsList MDoc).page = 0 :=
  ⟨page_le_one_no_skip.1 MDoc oneDocCollection (fun d => Except.ok d)
     ⟨[], Option.none, 0, 20, false⟩ (by norm_num),
   page_le_one_no_skip.2.1 MDoc oneDocCollection (fun d => Except.ok d)
     ⟨[], Option.none, 0, 20, false⟩
     ⟨[[("v", PyVal.int 1), ("id", PyVal.oid "a")]], 0, 20, Option.none⟩ rfl⟩

theorem extract_id_ids_mem (r : RelState) (it : SItem) (s : String) :
    s ∈ (Relation.extract_id r it).ids ↔
      s ∈ r.ids ∨ (it.relId = some s ∧ s ≠ "") := by
  obtain ⟨rid, tgt⟩ := it
  cases rid with
  | none => simp [Relation.extract_id]
  | some t =>
      by_cases ht : t = ""
      · subst ht
        simp only [Relation.extract_id, ne_eq, not_true_eq_false, if_false,
          Option.some.injEq]
        constructor
        · exact Or.inl
        · rintro (h | ⟨rfl, hs⟩)
          · exact h
          · exact absurd rfl hs
      · by_cases hmem : t ∈ r.ids
        · simp only [Relation.extract_id, ne_eq, ht, not_false_eq_true, if_true,
            if_pos hmem, Option.some.injEq]
          constructor
          · exact Or.inl
          · rintro (h | ⟨rfl, hs⟩)
            · exact h
            · exact hmem
        · simp only [Relation.extract_id, ne_eq, ht, not_false_eq_true, if_true,
            if_neg hmem, List.mem_cons, Option.some.injEq]
          constructor
          · rintro (rfl | h)
            · exact Or.inr ⟨rfl, ht⟩
            · exact Or.inl h
          · rintro (h | ⟨rfl, hs⟩)
            · exact Or.inr h
            · exact Or.inl rfl

theorem gather_ids_mem (items : List SItem) :
    ∀ (r : RelState) (s : String),
      s ∈ (items.foldl Relation.extract_id r).ids ↔
        s ∈ r.ids ∨ ∃ it ∈ items, it.relId = some s ∧ s ≠ "" := by
  induction items with
  | nil => intro r s; simp
  | cons it tl ih =>
      intro r s
      rw [List.foldl_cons, ih, extract_id_ids_mem]
      constructor
      · rintro ((h | h) | ⟨it2, hmem, h2⟩)
        · exact Or.inl h
        · exact Or.inr ⟨it, by simp, h⟩
        · exact Or.inr ⟨it2, by simp [hmem], h2⟩
      · rintro (h | ⟨it2, hmem, h2⟩)
        · exact Or.inl (Or.inl h)
        · rcases List.mem_cons.mp hmem with rfl | hmem2
          · exact Or.inl (Or.inr h2)
          · exact Or.inr ⟨it2, hmem2, h2⟩

theorem extract_id_ids_nodup (r : RelState) (it : SItem) (h : r.ids.Nodup) :
    (Relation.extract_id r it).ids.Nodup := by
  obtain ⟨rid, tgt⟩ := it
  cases rid with
  | none => exact h
  | some t =>
      simp only [Relation.extract_id]
      split
      · split
        next hmem => exact h
        next hmem => exact List.Nodup.cons hmem h
      · exact h

theorem gather_ids_nodup (items : List SItem) :
    ∀ r : RelState, r.ids.Nodup → (items.foldl Relation.extract_id r).ids.Nodup := by
  induction items with
  | nil => exact fun r h => h
  | cons it tl ih =>
      intro r h
      exact ih _ (extract_id_ids_nodup r it h)

/-- C8: relation loading over a whole batch gathers exactly the distinct
truthy references (a deduplicated set whose members are precisely the ids
referenced by some record), issues its single lookup over exactly that
set (and none when the set is empty), and injection sets every record's
target to the lookup result matched by its reference — `None` when the
reference is absent, empty, or unmatched. -/
theorem relation_batch_loading :
    ∀ (search : List String → List SModel) (items : List SItem),
      (gatherRel items).ids.Nodup ∧
      (∀ s, s ∈ (gatherRel items).ids ↔ ∃ it ∈ items, it.relId = some s ∧ s ≠ "") ∧
      (inject_list_relation search items).1 =
        (if (gatherRel items).ids.isEmpty then Option.none
         else some (gatherRel items).ids) ∧
      (inject_list_relation search items).2 = items.map (fun it =>
        { it with target :=
            match it.relId with
            | some s =>
                if s ≠ "" then
                  (((Relation.load search (gatherRel items)).2.models).find?
                      (fun kv => kv.1 == s)).map (fun kv => kv.2)
                else Option.none
            | Option.none => Option.none }) := by
  intro search items
  refine ⟨gather_ids_nodup items ⟨[], []⟩ List.nodup_nil, ?_, ?_, ?_⟩
  · intro s
    rw [gatherRel, gather_ids_mem]
    simp
  · simp only [inject_list_relation, gatherRel, Relation.load]
    by_cases he : ((items.foldl Relation.extract_id ⟨[], []⟩).ids).isEmpty <;> simp [he]
  · simp only [inject_list_relation]
    apply List.map_congr_left
    intro it hit
    obtain ⟨rid, tgt⟩ := it
    cases rid with
    | none => rfl
    | some s =>
        by_cases hs : s = ""
        · simp [Relation.inject, hs, gatherRel]
        · simp [Relation.inject, hs, gatherRel]

end Apimate








